import Mathlib

/-!
Shallow embedding of the goc build/client packages.

Source files embedded here:
  - pkg/build/build.go: the `Build` descriptor, `NewBuild`, `determineOutputDir`,
    `validatePackageForBuild`, the `Build` and `Run` process invocations.
  - pkg/client/client.go: `ListAgents`, `getSimpleCmdLine`, `isNetworkError`.

Modelling conventions:
  - Go strings are Lean `String`; Go byte indexing coincides with character
    indexing for the ASCII data handled here.
  - Effectful inputs (`os.Getwd`, `os.Environ`, the subprocess outcome, the two
    HTTP attempts, terminal-size detection) are passed as explicit arguments.
  - Fallible Go functions returning `(T, error)` become `Except` values.
  - `log.Fatalf` (process termination) is modelled as an explicit outcome
    constructor, distinct from returning an error to the caller.
-/

namespace Goc

instance instDecEqExcept {ε α : Type} [DecidableEq ε] [DecidableEq α] :
    DecidableEq (Except ε α) := fun
  | .error e, .error f =>
    match decEq e f with
    | .isTrue h => .isTrue (h ▸ rfl)
    | .isFalse h => .isFalse fun hc => h (Except.error.inj hc)
  | .error _, .ok _ => .isFalse fun hc => Except.noConfusion hc
  | .ok _, .error _ => .isFalse fun hc => Except.noConfusion hc
  | .ok a, .ok b =>
    match decEq a b with
    | .isTrue h => .isTrue (h ▸ rfl)
    | .isFalse h => .isFalse fun hc => h (Except.ok.inj hc)

/-- Opaque-ish model of a Go `error` value: the fields record exactly the
dynamic properties `isNetworkError` inspects (identity with `io.EOF`, and
whether the dynamic type implements `net.Error`). -/
structure GoError where
  msg : String := ""
  isEOF : Bool := false
  isNetError : Bool := false
deriving DecidableEq, Repr

/-- Error values of pkg/build (declared outside build.go; the names are the
ones build.go references, plus the two wrapped process-failure errors). -/
inductive BuildError where
  | ErrWrongPackageTypeForBuild
  | ErrWrongCallSequence
  | ErrExecStart (e : GoError)
  | ErrExecWait (e : GoError)
deriving DecidableEq, Repr

/-- Model of the `file` component of Go `filepath.Split`: the characters after
the last path separator (the whole string when there is none). -/
def lastSegment (s : String) : String :=
  String.mk (s.data.foldl (fun acc c => if c = '/' then [] else acc ++ [c]) [])

/-- Model of Go `strings.ReplaceAll` for single-character pattern and
replacement, as used with "_" and "-" in `determineOutputDir`. -/
def replaceAllChar (s : String) (a b : Char) : String :=
  String.mk (s.data.map (fun c => if c = a then b else c))

/-- Model of Go `filepath.Join` on two already-clean path components. -/
def filepathJoin (a b : String) : String :=
  if a = "" then b else if b = "" then a else a ++ "/" ++ b

/-- Model of Go `filepath.Abs` relative to the process working directory:
an absolute path is returned unchanged, a relative one is joined to `cwd`. -/
def filepathAbs (cwd p : String) : String :=
  if p.data.head? = some '/' then p else filepathJoin cwd p

/-- The `Build` descriptor of build.go. The `Pkgs` package-metadata map is
consumed only by the external instrumentation collaborator and is omitted. -/
structure Build where
  NewGOPATH : String := ""
  OriGOPATH : String := ""
  TmpDir : String := ""
  TmpWorkingDir : String := ""
  IsMod : Bool := false
  Root : String := ""
  Target : String := ""
  BuildFlags : String := ""
  Packages : String := ""
  GoRunExecFlag : String := ""
  GoRunArguments : String := ""
deriving DecidableEq, Repr

/-- build.go `validatePackageForBuild`: only "." is allowed as package name. -/
def Build.validatePackageForBuild (b : Build) : Bool :=
  if b.Packages = "." then true else false

/-- build.go `determineOutputDir`. `cwd` stands for the `os.Getwd` result
(its error path, and the `filepath.Abs` error path, are not modelled since
both are pure here). -/
def Build.determineOutputDir (b : Build) (cwd : String) (outputDir : String) :
    Except BuildError String :=
  if b.TmpDir = "" then
    .error .ErrWrongCallSequence
  else if outputDir = "" then
    let last := lastSegment cwd
    let last := if b.IsMod then replaceAllChar last '_' '-' else last
    .ok (filepathJoin cwd last)
  else
    .ok (filepathAbs cwd outputDir)

/-- build.go `NewBuild`. The relocation step `MvProjectsToTmp` lives outside
build.go and is abstracted as the argument `mv`; the Bool in the result
records whether relocation was invoked at all (the observable side effect). -/
def NewBuild (buildflags packages outputDir : String) (mv : Build → Build)
    (cwd : String) : Except BuildError Build × Bool :=
  let b : Build := { BuildFlags := buildflags, Packages := packages }
  if b.validatePackageForBuild = false then
    (.error .ErrWrongPackageTypeForBuild, false)
  else
    let b2 := mv b
    match b2.determineOutputDir cwd outputDir with
    | .ok dir => (.ok { b2 with Target := dir }, true)
    | .error e => (.error e, true)

/-- An environment is a list of variable/value bindings; when a variable is
bound twice, `exec` semantics makes the last binding win (see `envLookup`). -/
abbrev EnvList := List (String × String)

/-- Model of an `exec.Cmd` as built by build.go: the argv triple passed to
`exec.Command`, the working directory, and the explicit environment
(`none` models a nil `cmd.Env`, i.e. inherit the parent's environment). -/
structure ExecCmd where
  argv : List String := []
  dir : String := ""
  env : Option EnvList := none
deriving DecidableEq, Repr

/-- Outcome of running the spawned subprocess: `cmd.Start` failed, `cmd.Wait`
failed (non-zero exit or wait error), or both succeeded. -/
inductive ProcResult where
  | startFail (e : GoError)
  | waitFail (e : GoError)
  | success
deriving DecidableEq, Repr

/-- What `Run` does to the calling process: `log.Fatalf` terminates the whole
process (`fatalExit`); otherwise control returns normally. `Run` has no error
result, so this type has no error-carrying constructor. -/
inductive RunTermination where
  | fatalExit
  | completed
deriving DecidableEq, Repr

/-- Effective child environment: a nil `cmd.Env` means the child inherits the
parent's environment. -/
def effectiveEnv (parent : EnvList) : Option EnvList → EnvList
  | none => parent
  | some e => e

/-- Last-binding-wins lookup, the semantics `exec` gives a duplicated
variable in the environment list. -/
def envLookup (env : EnvList) (key : String) : Option String :=
  (env.reverse.find? (fun kv => kv.1 == key)).map (fun kv => kv.2)

/-- build.go method `Build` on `*Build` (the `go build` invocation; named
`BuildInvoke` here because `Build.Build` would shadow the type). It first
mutates the descriptor, appending " -o <Target>" to `BuildFlags`; the returned
triple is the mutated descriptor, the constructed `exec.Cmd` (with
GOPATH appended to the parent environment when `NewGOPATH` is set), and the
error result driven by the subprocess outcome `r`. -/
def Build.BuildInvoke (b : Build) (parentEnv : EnvList) (r : ProcResult) :
    Build × ExecCmd × Except BuildError Unit :=
  let b := { b with BuildFlags := b.BuildFlags ++ " -o " ++ b.Target }
  let cmdline := "go build " ++ b.BuildFlags ++ " " ++ b.Packages
  let env : Option EnvList :=
    if b.NewGOPATH ≠ "" then some (parentEnv ++ [("GOPATH", b.NewGOPATH)]) else none
  (b,
   { argv := ["/bin/bash", "-c", cmdline], dir := b.TmpWorkingDir, env := env },
   match r with
   | .startFail e => .error (.ErrExecStart e)
   | .waitFail e => .error (.ErrExecWait e)
   | .success => .ok ())

/-- build.go method `Run` on `*Build` (the `go run` invocation). Same
environment rule as `Build.Build`; a start or wait failure hits `log.Fatalf`,
modelled as `RunTermination.fatalExit` — nothing is returned to the caller. -/
def Build.Run (b : Build) (parentEnv : EnvList) (r : ProcResult) :
    ExecCmd × RunTermination :=
  let cmdline := "go run " ++ b.BuildFlags ++ " " ++ b.GoRunExecFlag ++ " " ++
    b.Packages ++ " " ++ b.GoRunArguments
  let env : Option EnvList :=
    if b.NewGOPATH ≠ "" then some (parentEnv ++ [("GOPATH", b.NewGOPATH)]) else none
  ({ argv := ["/bin/bash", "-c", cmdline], dir := b.TmpWorkingDir, env := env },
   match r with
   | .startFail _ => .fatalExit
   | .waitFail _ => .fatalExit
   | .success => .completed)

/-- Whether the pattern `pat` occurs at the head of `s`. -/
def matchesAt : List Char → List Char → Bool
  | [], _ => true
  | _ :: _, [] => false
  | p :: ps, c :: cs => p = c && matchesAt ps cs

/-- Number of positions of `s` at which `pat` occurs (occurrence count). -/
def countSub (s pat : List Char) : Nat :=
  match s with
  | [] => 0
  | _ :: cs => (if matchesAt pat s then 1 else 0) + countSub cs pat

/-- client.go `gocCoveredAgent`: one registered covered agent. -/
structure GocCoveredAgent where
  Id : String := ""
  RemoteIP : String := ""
  Hostname : String := ""
  CmdLine : String := ""
  Pid : String := ""
deriving DecidableEq, Repr

/-- client.go `gocListAgents`: the decoded list response. -/
structure GocListAgents where
  Items : List GocCoveredAgent := []
deriving DecidableEq, Repr

/-- client.go `getSimpleCmdLine`. `termWidth` is the `term.GetSize` result:
`none` models a detection error, `some w` a detected width `w`. Go's byte
slice `cmdLine[:k]` becomes a character `take` (ASCII data). -/
def getSimpleCmdLine (termWidth : Option Int) (preLen : Nat) (cmdLine : String) :
    String :=
  let pathLen := cmdLine.length
  let width : Int :=
    match termWidth with
    | none => 16 + (preLen : Int)
    | some w => if w ≤ (preLen : Int) + 16 then 16 + (preLen : Int) else w
  if (pathLen : Int) > width - (preLen : Int) then
    String.mk (cmdLine.data.take (width - (preLen : Int)).toNat)
  else cmdLine

/-- Visible command width used by `getSimpleCmdLine` (its `width - preLen`
after the width fallback). -/
def narrowClipWidth (termWidth : Option Int) (preLen : Nat) : Int :=
  (match termWidth with
   | none => 16 + (preLen : Int)
   | some w => if w ≤ (preLen : Int) + 16 then 16 + (preLen : Int) else w) -
    (preLen : Int)

/-- Command cell of a narrow-mode row in `ListAgents`: the prefix length is
`len(agent.Id) + len(agent.RemoteIP) + 9`. -/
def displayedCmd (termWidth : Option Int) (a : GocCoveredAgent) : String :=
  getSimpleCmdLine termWidth (a.Id.length + a.RemoteIP.length + 9) a.CmdLine

/-- client.go `isNetworkError`: true for the `io.EOF` sentinel and for any
error whose dynamic type implements `net.Error`. -/
def isNetworkError (e : GoError) : Bool :=
  e.isEOF || e.isNetError

/-- Outcome of `ListAgents` for the calling process: `log.Fatalf` terminates
the process, otherwise the table rows are rendered. -/
inductive ListOutcome where
  | fatalExit
  | rendered (rows : List (List String))
deriving DecidableEq, Repr

/-- client.go `ListAgents`. The two possible GET attempts are passed as
`first` and `retry` (each either an error or a response body); `unmarshal`
stands for `json.Unmarshal` on the body. The returned Nat counts how many GET
requests were issued. -/
def ListAgents (wide : Bool) (termWidth : Option Int)
    (first retry : Except GoError String)
    (unmarshal : String → Except GoError GocListAgents) : Nat × ListOutcome :=
  let attempts : Nat × Except GoError String :=
    match first with
    | .error e => if isNetworkError e then (2, retry) else (1, .error e)
    | .ok body => (1, .ok body)
  match attempts.2 with
  | .error _ => (attempts.1, .fatalExit)
  | .ok body =>
    match unmarshal body with
    | .error _ => (attempts.1, .fatalExit)
    | .ok agents =>
      (attempts.1, .rendered (agents.Items.map (fun a =>
        if wide then [a.Id, a.RemoteIP, a.Hostname, a.Pid, a.CmdLine]
        else [a.Id, a.RemoteIP, displayedCmd termWidth a])))

/-- Concrete descriptors used by witnesses and counterexamples. -/
def legacyBuildW : Build := { TmpDir := "/tmp/goc_build" }

def modBuildW : Build := { TmpDir := "/tmp/goc", IsMod := true }

def cexAgent : GocCoveredAgent :=
  { Id := "1", RemoteIP := "10.0.0.1", CmdLine := "/bin/foo --flag=verylongvalue" }


/-! Helper lemmas shared by several claims. -/

lemma foldl_no_slash (l acc : List Char) (h : ∀ c ∈ l, c ≠ '/') :
    l.foldl (fun acc c => if c = '/' then [] else acc ++ [c]) acc = acc ++ l := by
  induction l generalizing acc with
  | nil => simp
  | cons c cs ih =>
    have hc : c ≠ '/' := h c (by simp)
    have hcs : ∀ d ∈ cs, d ≠ '/' := fun d hd => h d (by simp [hd])
    simp [List.foldl_cons, hc, ih (acc ++ [c]) hcs]

lemma lastSegment_append_sep (parent rest : String) (h : ∀ c ∈ rest.data, c ≠ '/') :
    lastSegment (parent ++ "/" ++ rest) = rest := by
  unfold lastSegment
  rw [String.data_append, String.data_append, List.foldl_append, List.foldl_append]
  have hsep : List.foldl (fun acc c => if c = '/' then [] else acc ++ [c])
      (List.foldl (fun acc c => if c = '/' then [] else acc ++ [c]) [] parent.data)
      ("/").data = [] := by
    simp [String.data]
  rw [hsep, foldl_no_slash rest.data [] h]
  cases rest
  simp

lemma append_ne_empty_of_right (a b : String) (hb : b.data ≠ []) : a ++ b ≠ "" := by
  intro h
  have h2 : (a ++ b).data = ([] : List Char) := by rw [h]
  rw [String.data_append] at h2
  exact hb (List.append_eq_nil.mp h2).2

/-! Claim theorems. -/

/-- C1: with a non-empty `TmpDir` and an empty explicit output directory,
`determineOutputDir` returns the working directory joined with its own last
path segment, the segment having each underscore replaced by a hyphen exactly
when `IsMod` is set. -/
theorem determineOutputDir_default_output (b : Build) (cwd : String)
    (h : b.TmpDir ≠ "") :
    b.determineOutputDir cwd "" =
      .ok (filepathJoin cwd
        (if b.IsMod then replaceAllChar (lastSegment cwd) '_' '-'
         else lastSegment cwd)) := by
  unfold Build.determineOutputDir
  simp [h]

/-- C1 witness: the legacy-layout scenario, working directory `R/src/myapp`,
resolves to `R/src/myapp/myapp`. -/
theorem determineOutputDir_default_output_witness :
    Build.determineOutputDir legacyBuildW "R/src/myapp" "" =
      .ok "R/src/myapp/myapp" :=
  (determineOutputDir_default_output legacyBuildW "R/src/myapp"
    (by decide)).trans (by decide)

/-- C2 counterexample: for a module project in `/home/user/my_app` the
resolved path is `/home/user/my_app/my-app` (inside the working directory),
not `/home/user/my-app` (inside the parent) as the claim states. -/
theorem determineOutputDir_module_cex :
    Build.determineOutputDir modBuildW "/home/user/my_app" "" =
      .ok "/home/user/my_app/my-app" ∧
    Build.determineOutputDir modBuildW "/home/user/my_app" "" ≠
      .ok "/home/user/my-app" := by
  constructor
  · decide
  · decide

/-- C2 amended: for a module-layout project whose working directory's last
segment is `my_app`, with no explicit output directory, the resolved path is
the working directory itself joined with the normalized name, i.e.
`<cwd>/my-app`. -/
theorem determineOutputDir_module_amended (b : Build) (parent : String)
    (h1 : b.TmpDir ≠ "") (h2 : b.IsMod = true) :
    b.determineOutputDir (parent ++ "/" ++ "my_app") "" =
      .ok (parent ++ "/" ++ "my_app" ++ "/" ++ "my-app") := by
  rw [determineOutputDir_default_output b _ h1, h2]
  rw [lastSegment_append_sep parent "my_app" (by decide)]
  have hrep : replaceAllChar "my_app" '_' '-' = "my-app" := by decide
  rw [if_pos rfl, hrep]
  unfold filepathJoin
  rw [if_neg (append_ne_empty_of_right _ "my_app" (by decide))]
  rw [if_neg (by decide : ¬("my-app" : String) = "")]

/-- C2 amended witness: concrete parent `/home/user`. -/
theorem determineOutputDir_module_amended_witness :
    Build.determineOutputDir modBuildW ("/home/user" ++ "/" ++ "my_app") "" =
      .ok ("/home/user" ++ "/" ++ "my_app" ++ "/" ++ "my-app") :=
  determineOutputDir_module_amended modBuildW "/home/user" (by decide) rfl

/-- C4: whatever the explicit output-directory argument is, resolution with an
empty `TmpDir` fails with `ErrWrongCallSequence` and yields no path. -/
theorem determineOutputDir_requires_reloc (b : Build) (cwd outputDir : String)
    (h : b.TmpDir = "") :
    b.determineOutputDir cwd outputDir = .error .ErrWrongCallSequence := by
  unfold Build.determineOutputDir
  simp [h]

/-- C4 witness: the freshly constructed descriptor with a non-empty explicit
output directory. -/
theorem determineOutputDir_requires_reloc_witness :
    Build.determineOutputDir {} "/work" "/out" = .error .ErrWrongCallSequence :=
  determineOutputDir_requires_reloc {} "/work" "/out" rfl

/-- C3: `NewBuild` fails with `ErrWrongPackageTypeForBuild` and never invokes
relocation (second component `false`, and the result does not depend on `mv`)
exactly when the package specifier differs from "."; the validator accepts
"." and construction then proceeds to relocation. -/
theorem newBuild_validates_package (buildflags packages outputDir cwd : String)
    (mv : Build → Build) :
    (NewBuild buildflags packages outputDir mv cwd =
        (.error .ErrWrongPackageTypeForBuild, false) ↔ packages ≠ ".") ∧
    (Build.validatePackageForBuild
        { BuildFlags := buildflags, Packages := packages } = true ↔
      packages = ".") ∧
    ((NewBuild buildflags packages outputDir mv cwd).2 = true ↔ packages = ".") := by
  unfold NewBuild Build.validatePackageForBuild
  by_cases hp : packages = "."
  · subst hp
    cases hmatch : Build.determineOutputDir
        (mv { BuildFlags := buildflags, Packages := "." }) cwd outputDir <;>
      simp [hmatch]
  · simp [hp]

/-- C5: each `Build` invocation appends " -o <Target>" to `BuildFlags` once,
the command line is `go build <flags> <packages>`, a repeated invocation on
the same descriptor accumulates a second " -o <Target>", and on the concrete
scenario (`-v`, target `/out/app`) the flag occurs exactly once. -/
theorem build_appends_output_flag (b : Build) (p : EnvList) (r : ProcResult) :
    ((b.BuildInvoke p r).1.BuildFlags = b.BuildFlags ++ " -o " ++ b.Target) ∧
    ((b.BuildInvoke p r).2.1.argv =
      ["/bin/bash", "-c",
        "go build " ++ (b.BuildFlags ++ " -o " ++ b.Target) ++ " " ++ b.Packages]) ∧
    (((b.BuildInvoke p r).1.BuildInvoke p r).1.BuildFlags =
      b.BuildFlags ++ " -o " ++ b.Target ++ " -o " ++ b.Target) ∧
    (({ BuildFlags := "-v", Target := "/out/app", Packages := "." } :
        Build).BuildInvoke [] .success).2.1.argv =
      ["/bin/bash", "-c", "go build -v -o /out/app ."] ∧
    countSub ("go build -v -o /out/app .").data (" -o ").data = 1 := by
  refine ⟨rfl, rfl, rfl, rfl, by decide⟩

/-- C6: for both `Build` and `Run`, the spawned command's environment is the
inherited one unmodified when `NewGOPATH` is empty, and otherwise the
inherited one extended with a final GOPATH binding, which under
last-binding-wins lookup overrides GOPATH to `NewGOPATH` and leaves every
other variable as in the parent. The parent environment `p` itself is only
read, never changed. -/
theorem child_env_override (b : Build) (p : EnvList) (r : ProcResult)
    (key : String) :
    ((b.BuildInvoke p r).2.1.env =
      if b.NewGOPATH = "" then none else some (p ++ [("GOPATH", b.NewGOPATH)])) ∧
    ((b.Run p r).1.env =
      if b.NewGOPATH = "" then none else some (p ++ [("GOPATH", b.NewGOPATH)])) ∧
    (envLookup (effectiveEnv p (b.BuildInvoke p r).2.1.env) key =
      if b.NewGOPATH = "" ∨ key ≠ "GOPATH" then envLookup p key
      else some b.NewGOPATH) ∧
    (envLookup (effectiveEnv p (b.Run p r).1.env) key =
      if b.NewGOPATH = "" ∨ key ≠ "GOPATH" then envLookup p key
      else some b.NewGOPATH) := by
  by_cases hg : b.NewGOPATH = ""
  · simp [Build.BuildInvoke, Build.Run, effectiveEnv, hg]
  · by_cases hk : key = "GOPATH"
    · simp [Build.BuildInvoke, Build.Run, effectiveEnv, envLookup, hg, hk,
        List.reverse_append]
    · simp [Build.BuildInvoke, Build.Run, effectiveEnv, envLookup, hg, hk,
        List.reverse_append, Ne.symm hk]

/-- C9: a start or wait failure makes `Run` terminate the whole calling
process (`fatalExit`; its outcome type has no error constructor to hand back),
while `Build` returns the corresponding wrapped error to its caller. -/
theorem run_fatal_build_err (b : Build) (p : EnvList) (e : GoError) :
    ((b.Run p (.startFail e)).2 = .fatalExit) ∧
    ((b.Run p (.waitFail e)).2 = .fatalExit) ∧
    ((b.BuildInvoke p (.startFail e)).2.2 = .error (.ErrExecStart e)) ∧
    ((b.BuildInvoke p (.waitFail e)).2.2 = .error (.ErrExecWait e)) ∧
    (∀ r : ProcResult,
      (b.Run p r).2 = .fatalExit ∨ (b.Run p r).2 = .completed) ∧
    ((b.Run p .success).2 = .completed) ∧
    ((b.BuildInvoke p .success).2.2 = .ok ()) := by
  refine ⟨rfl, rfl, rfl, rfl, ?_, rfl, rfl⟩
  intro r
  cases r <;> simp [Build.Run]

/-- C8: the listing client issues a second GET exactly when the first attempt
failed with an error the code classifies as a network error; the total number
of requests is always one or two, and neither a decode failure nor any
non-network first-attempt error causes a retry. -/
theorem listAgents_retry_once (wide : Bool) (tw : Option Int)
    (first retry : Except GoError String)
    (um : String → Except GoError GocListAgents) :
    ((ListAgents wide tw first retry um).1 = 2 ↔
      ∃ e, first = .error e ∧ isNetworkError e = true) ∧
    (1 ≤ (ListAgents wide tw first retry um).1 ∧
      (ListAgents wide tw first retry um).1 ≤ 2) := by
  cases first with
  | ok body =>
    cases hm : um body <;> simp [ListAgents, hm]
  | error e =>
    by_cases hn : isNetworkError e = true
    · cases retry with
      | ok body2 =>
        cases hm : um body2 <;> simp [ListAgents, hn, hm]
      | error e2 => simp [ListAgents, hn]
    · simp [ListAgents, hn]

/-- Reformulation of `getSimpleCmdLine` through `narrowClipWidth` (the two
unfold to the same term). -/
lemma getSimpleCmdLine_eq_clip (tw : Option Int) (preLen : Nat) (cmd : String) :
    getSimpleCmdLine tw preLen cmd =
      if (cmd.length : Int) > narrowClipWidth tw preLen then
        String.mk (cmd.data.take (narrowClipWidth tw preLen).toNat)
      else cmd := rfl

lemma narrowClipWidth_none (preLen : Nat) : narrowClipWidth none preLen = 16 := by
  simp only [narrowClipWidth]
  omega

lemma narrowClipWidth_some (preLen : Nat) (w : Int) :
    narrowClipWidth (some w) preLen =
      if w ≤ (preLen : Int) + 16 then 16 else w - (preLen : Int) := by
  simp only [narrowClipWidth]
  by_cases h : w ≤ (preLen : Int) + 16
  · rw [if_pos h, if_pos h]
    omega
  · rw [if_neg h, if_neg h]

lemma narrowClipWidth_ge_16 (tw : Option Int) (preLen : Nat) :
    16 ≤ narrowClipWidth tw preLen := by
  cases tw with
  | none => rw [narrowClipWidth_none]
  | some w =>
    rw [narrowClipWidth_some]
    split <;> omega

lemma getSimpleCmdLine_length (tw : Option Int) (preLen : Nat) (cmd : String) :
    (getSimpleCmdLine tw preLen cmd).length =
      min cmd.length (narrowClipWidth tw preLen).toNat := by
  rw [getSimpleCmdLine_eq_clip]
  have h16 := narrowClipWidth_ge_16 tw preLen
  have hlen : cmd.length = cmd.data.length := rfl
  split
  · next h =>
    show (cmd.data.take (narrowClipWidth tw preLen).toNat).length = _
    rw [List.length_take]
    omega
  · next h => omega

/-- C7 counterexample: agent id "1", remote IP "10.0.0.1" (prefix length 18),
detected terminal width 20, command of 29 characters: the displayed command
has 16 characters, which exceeds the detected width minus the prefix (2). -/
theorem narrow_clip_cex :
    ¬ (((displayedCmd (some 20) cexAgent).length : Int) ≤
        20 - ((cexAgent.Id.length + cexAgent.RemoteIP.length + 9 : Nat) : Int)) := by
  decide

/-- C7 amended: the narrow-mode displayed command never exceeds
max(detected width − prefix, 16) characters; when the terminal width cannot
be detected it is clipped to at most 16 characters beyond the prefix. -/
theorem narrow_clip_amended (a : GocCoveredAgent) (w : Int) :
    (((displayedCmd (some w) a).length : Int) ≤
      max (w - ((a.Id.length + a.RemoteIP.length + 9 : Nat) : Int)) 16) ∧
    (displayedCmd none a).length ≤ 16 := by
  unfold displayedCmd
  rw [getSimpleCmdLine_length, getSimpleCmdLine_length,
    narrowClipWidth_some, narrowClipWidth_none]
  constructor
  · split
    · next h =>
      refine le_trans ?_ (le_max_right (w - ((a.Id.length + a.RemoteIP.length + 9 : Nat) : Int)) 16)
      omega
    · next h =>
      refine le_trans ?_ (le_max_left (w - ((a.Id.length + a.RemoteIP.length + 9 : Nat) : Int)) 16)
      omega
  · omega

/-- C10: the clipping function is total — the character count it slices at is
always at least 16 and, when it slices, within bounds — it always returns a
take-style front portion of the command line, and it always shows at least
min(length, 16) characters, the visible width being floored at 16 even for
detected widths below prefix+16. -/
theorem clip_total_safe (tw : Option Int) (preLen : Nat) (cmd : String) :
    (∃ n, getSimpleCmdLine tw preLen cmd = String.mk (cmd.data.take n)) ∧
    (min cmd.length 16 ≤ (getSimpleCmdLine tw preLen cmd).length) ∧
    (16 ≤ narrowClipWidth tw preLen) ∧
    (∀ w : Int, narrowClipWidth (some w) preLen =
      if w ≤ (preLen : Int) + 16 then 16 else w - (preLen : Int)) := by
  have h16 := narrowClipWidth_ge_16 tw preLen
  refine ⟨?_, ?_, h16, ?_⟩
  · rw [getSimpleCmdLine_eq_clip]
    split
    · exact ⟨(narrowClipWidth tw preLen).toNat, rfl⟩
    · exact ⟨cmd.data.length, by rw [List.take_length]⟩
  · rw [getSimpleCmdLine_length]
    omega
  · intro w
    exact narrowClipWidth_some preLen w

end Goc
